import Mathlib

/-!
# Verification of the proxy relay and URL validator

Shallow embedding of the request-proxy pipeline (the Next.js API handler in
the repository) and of the client-side URL validator
(src/utils/urlValidation, shipped in syntaxThemeTypes.ts), together with
proofs of the behavioural claims about them.

Modelling conventions:
* JavaScript strings are Lean strings; JS objects used as string maps are
  association lists with pairwise-distinct keys (a JSON-parsed object).
* Platform primitives that the handler calls (WHATWG URL parsing,
  JSON.parse, decodeURIComponent) are oracles collected in a Platform
  structure; theorems quantify over the oracle, and a small concrete model
  of each primitive is provided to instantiate witnesses.
* Fallible code is Option-valued; the handler is a pure function of the
  descriptor plus the outcome of the single outbound fetch.
-/

/-! ## Character-list string helpers (models of the JS string primitives) -/

/-- Model of JS s.startsWith(pat) specialised to char lists:
the list pat is a leading run of s. -/
def charsHaveLead : List Char → List Char → Bool
  | [], _ => true
  | _ :: _, [] => false
  | p :: ps, c :: cs => p == c && charsHaveLead ps cs

/-- Model of JS s.includes(pat) over char lists: pat occurs contiguously in s. -/
def charsInclude (pat : List Char) : List Char → Bool
  | [] => charsHaveLead pat []
  | c :: cs => charsHaveLead pat (c :: cs) || charsInclude pat cs

/-- Model of JS String.prototype.startsWith. -/
def jsStartsWith (s pat : String) : Bool :=
  charsHaveLead pat.data s.data

/-- Model of JS String.prototype.includes. -/
def jsIncludes (s pat : String) : Bool :=
  charsInclude pat.data s.data

/-- Model of JS String.prototype.toLowerCase restricted to ASCII input
(the hostnames it is applied to are ASCII after URL parsing). -/
def asciiLower (s : String) : String :=
  ⟨s.data.map Char.toLower⟩

/-- Model of JS String.prototype.toUpperCase restricted to ASCII input. -/
def asciiUpper (s : String) : String :=
  ⟨s.data.map Char.toUpper⟩

/-- The whitespace characters stripped by the model of JS
String.prototype.trim (the ASCII ones; the inputs considered are ASCII). -/
def isWsChar (c : Char) : Bool :=
  c == ' ' || c == '\t' || c == '\n' || c == '\r'

/-- Model of JS String.prototype.trim: strip leading and trailing
whitespace. -/
def jsTrim (s : String) : String :=
  ⟨((s.data.dropWhile isWsChar).reverse.dropWhile isWsChar).reverse⟩

/-- Decimal digit character for a value below ten. -/
def digitChar : Nat → Char
  | 0 => '0' | 1 => '1' | 2 => '2' | 3 => '3' | 4 => '4'
  | 5 => '5' | 6 => '6' | 7 => '7' | 8 => '8' | _ => '9'

/-- Decimal rendering of a natural number, accumulator form, with a fuel
argument (the fuel n + 1 used below always suffices, since a number has at
most n + 1 digits). -/
def natToDecimalAux : Nat → Nat → List Char → List Char
  | 0, _, acc => acc
  | fuel + 1, n, acc =>
    if n < 10 then digitChar n :: acc
    else natToDecimalAux fuel (n / 10) (digitChar (n % 10) :: acc)

/-- Model of the JS number-to-string conversion for the integers that occur
here (byte lengths, below 2^53, printed in plain decimal). -/
def natToDecimal (n : Nat) : List Char :=
  natToDecimalAux (n + 1) n []

/-- UTF-8 width of a character, used for the byte size of a Blob built from
a JS string. -/
def utf8Width (c : Char) : Nat :=
  if c.toNat < 0x80 then 1
  else if c.toNat < 0x800 then 2
  else if c.toNat < 0x10000 then 3
  else 4

/-- Model of new Blob([s]).size: the UTF-8 byte length of the string. -/
def blobSize (s : String) : Nat :=
  s.data.foldl (fun n c => n + utf8Width c) 0

/-! ## Data model: the request descriptor and the platform oracles -/

/-- The ProxyRequestBody interface of the relay handler. -/
structure ProxyRequestBody where
  method : String
  url : String
  headers : List (String × String)
  body : Option String
  bodyType : Option String

/-- The two fields of a parsed WHATWG URL that the code reads. -/
structure ParsedUrl where
  protocol : String
  hostname : String
deriving DecidableEq

/-- Platform primitives invoked by the handler, supplied as oracles:
parseUrl models new URL (none models a thrown TypeError), jsonParseOk
models whether JSON.parse succeeds, and decodeURIComponent models the
same-named global (none models a thrown URIError). -/
structure Platform where
  parseUrl : String → Option ParsedUrl
  jsonParseOk : String → Bool
  decodeURIComponent : String → Option String

/-- An outbound request body: a plain string, or the FormData assembled by
the form-data branch (its appended key/value pairs, in order). -/
inductive BodyValue
  | str (s : String)
  | form (entries : List (String × String))
deriving DecidableEq

/-- The RequestInit options built for the outbound fetch. -/
structure RequestOptions where
  method : String
  headers : List (String × String)
  body : Option BodyValue
deriving DecidableEq

/-- Outcome of the preflight portion of the handler (everything before the
outbound fetch): an early error response, or the fetch about to be issued.
A reject result means no outbound call is performed. -/
inductive PreflightStep
  | reject (status : Nat) (message : String)
  | send (url : String) (options : RequestOptions)
deriving DecidableEq

/-! ## Preflight: translation of the handler up to the fetch call -/

/-- The private/local network block list of the handler, applied to the
lower-cased hostname (source lines 38-54). -/
def isPrivateHostname (hostname : String) : Bool :=
  hostname == "localhost" ||
  hostname == "127.0.0.1" ||
  hostname == "0.0.0.0" ||
  jsStartsWith hostname "192.168." ||
  jsStartsWith hostname "10." ||
  jsStartsWith hostname "172.16." ||
  jsStartsWith hostname "172.17." ||
  jsStartsWith hostname "172.18." ||
  jsStartsWith hostname "172.19." ||
  jsStartsWith hostname "172.2" ||
  jsStartsWith hostname "172.30." ||
  jsStartsWith hostname "172.31." ||
  hostname == "::1" ||
  jsStartsWith hostname "fc00:" ||
  jsStartsWith hostname "fe80:"

/-- The clean-headers step (source lines 62-65): spread the caller headers
and delete the property named exactly "host". JS property deletion is
case-sensitive, so only the exact key "host" is removed. -/
def removeHostHeader (headers : List (String × String)) : List (String × String) :=
  headers.filter (fun kv => kv.1 != "host")

/-- Model of JS object-spread update: set key k to v, replacing an
existing entry with exactly that key in place, else appending it. -/
def jsObjSet (l : List (String × String)) (k v : String) : List (String × String) :=
  if l.any (fun kv => kv.1 == k) then
    l.map (fun kv => if kv.1 == k then (k, v) else kv)
  else l ++ [(k, v)]

/-- The methods that admit a request body (source line 73). -/
def jsBodyMethods : List String := ["POST", "PUT", "PATCH"]

/-- JS truthiness of the optional body string: present and non-empty. -/
def bodyTruthy : Option String → Bool
  | none => false
  | some s => s != ""

/-- One entry of the form-data branch (source lines 98-104): split on
every '=', keep the first field as key and rejoin the rest as value; skip
the entry unless the key is non-empty and at least one '=' was present;
URL-decode key and value (a decode error aborts the whole parse). -/
def parseFormEntry (pf : Platform) (entry : String) : Option (Option (String × String)) :=
  match entry.splitOn "=" with
  | [] => some none
  | key :: valueParts =>
    if key != "" && !valueParts.isEmpty then
      let value := String.intercalate "=" valueParts
      match pf.decodeURIComponent (jsTrim key), pf.decodeURIComponent (jsTrim value) with
      | some k, some v => some (some (k, v))
      | _, _ => none
    else some none

/-- The form-data body parse (source lines 96-105): split the body on
newlines, drop blank lines, process each entry in order; none models the
catch branch (a thrown URIError). -/
def buildFormData (pf : Platform) (body : String) : Option (List (String × String)) :=
  let entries := (body.splitOn "\n").filter (fun line => jsTrim line != "")
  entries.foldl
    (fun acc entry =>
      match acc with
      | none => none
      | some fd =>
        match parseFormEntry pf entry with
        | none => none
        | some none => some fd
        | some (some kv) => some (fd ++ [kv]))
    (some [])

/-- Result of the body-construction step (source lines 67-114). -/
inductive BuildResult
  | fail (status : Nat) (message : String)
  | ok (options : RequestOptions)

/-- The body-construction step: attach a body only for POST/PUT/PATCH
(after upper-casing) with a truthy body string, dispatching on bodyType
exactly as the source does (source lines 67-114). -/
def buildRequestOptions (pf : Platform) (b : ProxyRequestBody)
    (cleanHeaders : List (String × String)) : BuildResult :=
  if jsBodyMethods.contains (asciiUpper b.method) && bodyTruthy b.body then
    if b.bodyType == some "json" then
      if pf.jsonParseOk (b.body.getD "") then
        .ok ⟨b.method, jsObjSet cleanHeaders "Content-Type" "application/json",
             some (.str (b.body.getD ""))⟩
      else .fail 400 "Invalid JSON in request body"
    else if b.bodyType == some "x-www-form-urlencoded" then
      .ok ⟨b.method, jsObjSet cleanHeaders "Content-Type" "application/x-www-form-urlencoded",
           some (.str (b.body.getD ""))⟩
    else if b.bodyType == some "form-data" then
      match buildFormData pf (b.body.getD "") with
      | some entries => .ok ⟨b.method, cleanHeaders, some (.form entries)⟩
      | none => .fail 400 "Invalid form-data format"
    else
      .ok ⟨b.method, cleanHeaders, some (.str (b.body.getD ""))⟩
  else .ok ⟨b.method, cleanHeaders, none⟩

/-- The preflight portion of the handler (source lines 22-114): require a
url, parse it, block private hostnames, sanitize headers, build the body.
A send result carries exactly the fetch target and options. -/
def preflight (pf : Platform) (b : ProxyRequestBody) : PreflightStep :=
  if b.url == "" then .reject 400 "URL is required"
  else
    match pf.parseUrl b.url with
    | none => .reject 400 "Invalid URL"
    | some parsed =>
      if isPrivateHostname (asciiLower parsed.hostname) then
        .reject 400 "Requests to private networks are not allowed"
      else
        match buildRequestOptions pf b (removeHostHeader b.headers) with
        | .fail s m => .reject s m
        | .ok opts => .send b.url opts

/-! ## JSON values and the 2-space pretty printer -/

/-- JSON values as produced by the platform JSON.parse. A number carries
its rendered decimal string (the model is used with canonically rendered
numbers, where JS parse/stringify round-trips the digits). -/
inductive JsonVal
  | null
  | bool (b : Bool)
  | num (s : String)
  | str (s : String)
  | arr (xs : List JsonVal)
  | obj (fields : List (String × JsonVal))

/-- JSON string escaping as performed by JSON.stringify: quote, backslash
and control characters; other characters verbatim. -/
def jsonEscapeChar (c : Char) : List Char :=
  if c == '"' then ['\\', '"']
  else if c == '\\' then ['\\', '\\']
  else if c == (Char.ofNat 8) then ['\\', 'b']
  else if c == (Char.ofNat 12) then ['\\', 'f']
  else if c == '\n' then ['\\', 'n']
  else if c == '\r' then ['\\', 'r']
  else if c == '\t' then ['\\', 't']
  else if c.toNat < 32 then
    ['\\', 'u', '0', '0', digitChar (c.toNat / 16), digitChar (c.toNat % 16)]
  else [c]

/-- Quoted, escaped JSON string literal. -/
def jsonQuote (s : String) : String :=
  ⟨'"' :: (s.data.foldr (fun c acc => jsonEscapeChar c ++ acc) ['"'])⟩

mutual

/-- Model of JSON.stringify(v, null, 2) at nesting indent ind: members of
a non-empty array or object each sit on their own line indented two spaces
past ind, and the closing bracket returns to ind. -/
def jsonStringifyAt (ind : String) : JsonVal → String
  | .null => "null"
  | .bool true => "true"
  | .bool false => "false"
  | .num s => s
  | .str s => jsonQuote s
  | .arr [] => "[]"
  | .arr (x :: xs) =>
    "[\n" ++ jsonItems (ind ++ "  ") x xs ++ "\n" ++ ind ++ "]"
  | .obj [] => "\x7b\x7d"
  | .obj (f :: fs) =>
    "\x7b\n" ++ jsonFields (ind ++ "  ") f fs ++ "\n" ++ ind ++ "\x7d"
  termination_by v => sizeOf v

/-- Comma-and-newline separated array items, each prefixed by ind. -/
def jsonItems (ind : String) (x : JsonVal) : List JsonVal → String
  | [] => ind ++ jsonStringifyAt ind x
  | y :: ys => ind ++ jsonStringifyAt ind x ++ ",\n" ++ jsonItems ind y ys
  termination_by ys => 1 + sizeOf x + sizeOf ys

/-- Comma-and-newline separated object fields, each prefixed by ind. -/
def jsonFields (ind : String) : String × JsonVal → List (String × JsonVal) → String
  | (k, v), [] => ind ++ jsonQuote k ++ ": " ++ jsonStringifyAt ind v
  | (k, v), g :: gs =>
    ind ++ jsonQuote k ++ ": " ++ jsonStringifyAt ind v ++ ",\n" ++ jsonFields ind g gs
  termination_by f fs => 1 + sizeOf f + sizeOf fs

end

/-- Model of JSON.stringify(v, null, 2) (the handler's pretty printer for
JSON responses, source line 141). -/
def jsonStringify2 (v : JsonVal) : String :=
  jsonStringifyAt "" v

/-! ## Base64 and the binary-response strings -/

/-- The base64 alphabet. -/
def base64Table : List Char :=
  "ABCDEFGHIJKLMNOPQRSTUVWXYZabcdefghijklmnopqrstuvwxyz0123456789+/".data

/-- Character for a 6-bit group. -/
def b64Char (n : Nat) : Char :=
  base64Table.getD n '='

/-- Standard base64 chunk encoding of a byte list (each byte < 256),
with '=' padding; model of Buffer.from(buffer).toString(base64). -/
def base64Chunks : List Nat → List Char
  | b1 :: b2 :: b3 :: rest =>
    b64Char (b1 / 4) :: b64Char (b1 % 4 * 16 + b2 / 16) ::
    b64Char (b2 % 16 * 4 + b3 / 64) :: b64Char (b3 % 64) :: base64Chunks rest
  | [b1, b2] => [b64Char (b1 / 4), b64Char (b1 % 4 * 16 + b2 / 16), b64Char (b2 % 16 * 4), '=']
  | [b1] => [b64Char (b1 / 4), b64Char (b1 % 4 * 16), '=', '=']
  | [] => []

/-- Base64 encoding as a string. -/
def base64Encode (bytes : List Nat) : String :=
  ⟨base64Chunks bytes⟩

/-- The byte threshold of the binary branch: sizeInMB > 10 compares the
exact double byteLength / 2^20 (division by a power of two is exact in
floating point) against 10, so it holds iff byteLength > 10 * 2^20. -/
def binaryLimitBytes : Nat := 10 * 1024 * 1024

/-- Model of (byteLength / (1024*1024)).toFixed(2): the megabyte size
rounded to two decimals, half away from zero, rendered with exactly two
fraction digits. -/
def mbToFixed2 (byteLength : Nat) : List Char :=
  let n := (200 * byteLength + 1048576) / 2097152
  natToDecimal (n / 100) ++ ['.', digitChar (n % 100 / 10), digitChar (n % 10)]

/-- The common size header of both binary-branch strings (source lines
153 and 156). -/
def binarySizeHeader (byteLength : Nat) : List Char :=
  "[Binary data - ".data ++ natToDecimal byteLength ++ " bytes (".data ++
    mbToFixed2 byteLength ++ "MB)]\n\n".data

/-- The over-limit placeholder string (source line 153). -/
def binaryPlaceholder (byteLength : Nat) : String :=
  ⟨binarySizeHeader byteLength ++
    "File too large for preview. Use download button to save the file.".data⟩

/-- The under-limit preview string (source line 156): size header, the
literal marker, then the base64 payload. -/
def binaryPreview (bytes : List Nat) : String :=
  ⟨binarySizeHeader bytes.length ++ "Base64: ".data ++ base64Chunks bytes⟩

/-! ## Response classification and the envelope -/

/-- The three views of an outbound response body that the handler may
take: its raw bytes, its text decoding, and its JSON.parse result (none
models a rejected response.json()). -/
structure ResponseBody where
  bytes : List Nat
  text : String
  json : Option JsonVal

/-- The outbound fetch response as observed by the handler. -/
structure FetchResponse where
  status : Nat
  statusText : String
  headers : List (String × String)
  contentTypeHeader : Option String
  body : ResponseBody

/-- Response-body classification (source lines 138-161): JSON content
types are pretty-printed (parse failure falls back to the fixed message),
textual content types are read verbatim, anything else is rendered by the
binary branch with the 10 MiB base64 cut-off. -/
def classifyBody (contentType : String) (rb : ResponseBody) : String :=
  if jsIncludes contentType "application/json" then
    match rb.json with
    | some v => jsonStringify2 v
    | none => "Unable to parse response body"
  else if jsIncludes contentType "text/" ||
          jsIncludes contentType "application/xml" ||
          jsIncludes contentType "application/javascript" ||
          jsIncludes contentType "application/xhtml+xml" then
    rb.text
  else if binaryLimitBytes < rb.bytes.length then
    binaryPlaceholder rb.bytes.length
  else
    binaryPreview rb.bytes

/-- The normalized response envelope returned to the caller. -/
structure ResponseEnvelope where
  status : Nat
  statusText : String
  headers : List (String × String)
  data : String
  time : Nat
  size : Nat
  contentType : String

/-- Envelope assembly (source lines 128-178): echo the response headers
plus a synthetic x-original-url entry, classify the body, and report the
byte size of the final data string. -/
def mkEnvelope (url : String) (elapsedMs : Nat) (r : FetchResponse) : ResponseEnvelope :=
  let ct := r.contentTypeHeader.getD ""
  let d := classifyBody ct r.body
  { status := r.status
    statusText := r.statusText
    headers := jsObjSet r.headers "x-original-url" url
    data := d
    time := elapsedMs
    size := blobSize d
    contentType := ct }

/-! ## The full handler -/

/-- The 30-second outbound timeout (source line 118). -/
def proxyTimeoutMs : Nat := 30000

/-- Outcome of the single outbound fetch: a response, an AbortError (the
rejection produced when the timeout timer fires and its callback cancels
the in-flight call through the AbortController whose signal the fetch
carries, source lines 117-124), or another transport error carrying a
message when it was an Error instance. -/
inductive FetchOutcome
  | ok (r : FetchResponse)
  | abortError
  | failure (message : Option String)

/-- Model of racing the outbound call against the timeout timer: a target
that takes at least proxyTimeoutMs milliseconds loses the race, the timer
callback aborts the controller, and the fetch rejects with AbortError;
otherwise the response lands first. -/
def raceTimeout (targetDelayMs : Nat) (r : FetchResponse) : FetchOutcome :=
  if proxyTimeoutMs ≤ targetDelayMs then .abortError else .ok r

/-- The body of a handler response: the error object of a failure path,
or the success envelope. -/
inductive ResultBody
  | err (message : String)
  | env (e : ResponseEnvelope)

/-- What one invocation of the handler did: the HTTP status and response
headers it set, the body it returned, how many outbound fetches it issued
(0 or 1; the handler never retries), and the fetch target/options when an
outbound call was made. -/
structure HandlerResult where
  status : Nat
  setHeaders : List (String × String)
  body : ResultBody
  fetchCount : Nat
  outboundUrl : Option String
  outboundOptions : Option RequestOptions

/-- The security headers set unconditionally at the top of the handler
(source lines 13-15). -/
def securityHeaders : List (String × String) :=
  [("X-Content-Type-Options", "nosniff"),
   ("X-Frame-Options", "DENY"),
   ("X-XSS-Protection", "1; mode=block")]

/-- The full handler (source lines 11-194): reject non-POST transport
calls, run the preflight, and otherwise issue the single outbound fetch,
mapping an AbortError to the timeout message and any other rejection to
its message (or the generic fallback) as a 500. -/
def handler (pf : Platform) (transportMethod : String) (b : ProxyRequestBody)
    (outcome : FetchOutcome) (elapsedMs : Nat) : HandlerResult :=
  if transportMethod != "POST" then
    ⟨405, securityHeaders, .err "Method not allowed", 0, none, none⟩
  else
    match preflight pf b with
    | .reject s m => ⟨s, securityHeaders, .err m, 0, none, none⟩
    | .send url opts =>
      match outcome with
      | .ok r =>
        ⟨200, securityHeaders, .env (mkEnvelope url elapsedMs r), 1, some url, some opts⟩
      | .abortError =>
        ⟨500, securityHeaders, .err "Request timeout (30 seconds)", 1, some url, some opts⟩
      | .failure msg =>
        ⟨500, securityHeaders, .err (msg.getD "Request failed"), 1, some url, some opts⟩

/-! ## The client-side URL validator -/

/-- The UrlValidationResult interface of the validator. -/
structure UrlValidationResult where
  isValid : Bool
  canBeUsed : Bool
  error : Option String
  correctedUrl : Option String
deriving DecidableEq

/-- The validateUrl function (validator source lines 22-114): reject blank
input; for input without an explicit http/https scheme, try the candidate
obtained by prefixing https:// and on success report it as correctedUrl;
for input with a scheme, parse directly, restrict to http/https, and apply
the same hostname constraints. -/
def validateUrl (pf : Platform) (url : String) : UrlValidationResult :=
  if jsTrim url == "" then
    ⟨false, false, some "URL is required", none⟩
  else
    let trimmedUrl := jsTrim url
    if !jsStartsWith trimmedUrl "http://" && !jsStartsWith trimmedUrl "https://" then
      let correctedUrl := "https://" ++ trimmedUrl
      match pf.parseUrl correctedUrl with
      | none => ⟨false, false, some "Invalid URL format", none⟩
      | some parsed =>
        if parsed.hostname == "" || parsed.hostname.length < 2 then
          ⟨false, false, some "Invalid hostname", none⟩
        else if !jsIncludes parsed.hostname "." && parsed.hostname != "localhost" then
          ⟨false, false, some "Invalid domain format", none⟩
        else
          ⟨false, true, none, some correctedUrl⟩
    else
      match pf.parseUrl trimmedUrl with
      | none => ⟨false, false, some "Invalid URL format", none⟩
      | some parsed =>
        if parsed.protocol != "http:" && parsed.protocol != "https:" then
          ⟨false, false, some "Only HTTP and HTTPS protocols are supported", none⟩
        else if parsed.hostname == "" || parsed.hostname.length < 2 then
          ⟨false, false, some "Invalid hostname", none⟩
        else if !jsIncludes parsed.hostname "." && parsed.hostname != "localhost" then
          ⟨false, false, some "Invalid domain format", none⟩
        else
          ⟨true, true, none, none⟩

/-! ## Concrete platform models (used to instantiate the oracles) -/

/-- Model of the WHATWG new URL primitive restricted to plain absolute
URLs (letter scheme, "://", then an authority of visible ASCII up to the
first slash, query or fragment; userinfo before an at sign and a port
after a colon are stripped; the hostname is lower-cased). It returns none
when the scheme or host is missing or the host holds a blank. Only used
to instantiate the parseUrl oracle on simple concrete inputs. -/
def parseUrlModel (s : String) : Option ParsedUrl :=
  let cs := s.data
  let scheme := cs.takeWhile (fun c => c != ':')
  if scheme.isEmpty || !scheme.all Char.isAlpha then none
  else
    match cs.drop scheme.length with
    | ':' :: '/' :: '/' :: r =>
      let auth := r.takeWhile (fun c => !(['/', '?', '#'].contains c))
      let afterAt := (auth.reverse.takeWhile (fun c => c != '@')).reverse
      let host := afterAt.takeWhile (fun c => c != ':')
      if host.isEmpty || host.any (fun c => c == ' ' || c == '\t') then none
      else some ⟨⟨scheme.map Char.toLower⟩ ++ ":", ⟨host.map Char.toLower⟩⟩
    | _ => none

/-- Whitespace skipped between JSON tokens. -/
def jsonSkipWs (s : List Char) : List Char :=
  s.dropWhile (fun c => c == ' ' || c == '\t' || c == '\n' || c == '\r')

/-- Hex digit test for the JSON unicode escape. -/
def isHexChar (c : Char) : Bool :=
  c.isDigit || (97 ≤ c.toNat && c.toNat ≤ 102) || (65 ≤ c.toNat && c.toNat ≤ 70)

/-- JSON string-literal body: consume characters after the opening quote
up to the closing quote, handling the escape sequences of the grammar.
Returns the decoded characters and the remainder after the quote. -/
def jsonStringChars : List Char → Option (List Char × List Char)
  | [] => none
  | '"' :: r => some ([], r)
  | '\\' :: e :: r =>
    if e == '"' || e == '\\' || e == '/' then
      (jsonStringChars r).map (fun p => (e :: p.1, p.2))
    else if e == 'b' then (jsonStringChars r).map (fun p => (Char.ofNat 8 :: p.1, p.2))
    else if e == 'f' then (jsonStringChars r).map (fun p => (Char.ofNat 12 :: p.1, p.2))
    else if e == 'n' then (jsonStringChars r).map (fun p => ('\n' :: p.1, p.2))
    else if e == 'r' then (jsonStringChars r).map (fun p => ('\r' :: p.1, p.2))
    else if e == 't' then (jsonStringChars r).map (fun p => ('\t' :: p.1, p.2))
    else if e == 'u' then
      match r with
      | h1 :: h2 :: h3 :: h4 :: r2 =>
        if isHexChar h1 && isHexChar h2 && isHexChar h3 && isHexChar h4 then
          let hv := fun (c : Char) =>
            if c.isDigit then c.toNat - 48
            else if c.toNat ≥ 97 then c.toNat - 87 else c.toNat - 55
          let code := ((hv h1 * 16 + hv h2) * 16 + hv h3) * 16 + hv h4
          (jsonStringChars r2).map (fun p => (Char.ofNat code :: p.1, p.2))
        else none
      | _ => none
    else none
  | c :: r =>
    if c.toNat < 32 then none
    else (jsonStringChars r).map (fun p => (c :: p.1, p.2))

/-- Greatest run of decimal digits at the head of the input. -/
def jsonSpanDigits (s : List Char) : List Char × List Char :=
  (s.takeWhile Char.isDigit, s.dropWhile Char.isDigit)

/-- JSON number at the head of the input, per the JSON grammar
(optional minus, integer part without leading zeros, optional fraction,
optional exponent); returns the consumed characters and the remainder. -/
def jsonNumberChars (s : List Char) : Option (List Char × List Char) :=
  let (neg, s1) := match s with
    | '-' :: r => (['-'], r)
    | _ => (([] : List Char), s)
  match s1 with
  | '0' :: r =>
    if (r.headD ' ').isDigit then none else
    let (frac, r2) :=
      match r with
      | '.' :: r1 =>
        let (ds, r2) := jsonSpanDigits r1
        if ds.isEmpty then ([], '?' :: r1) else ('.' :: ds, r2)
      | _ => ([], r)
    if frac.isEmpty && (match r with | '.' :: _ => true | _ => false) then none
    else
      match r2 with
      | e :: r3 =>
        if e == 'e' || e == 'E' then
          let (sgn, r4) := match r3 with
            | '+' :: r5 => (['+'], r5)
            | '-' :: r5 => (['-'], r5)
            | _ => (([] : List Char), r3)
          let (ds, r6) := jsonSpanDigits r4
          if ds.isEmpty then none
          else some (neg ++ '0' :: frac ++ e :: sgn ++ ds, r6)
        else some (neg ++ '0' :: frac, r2)
      | [] => some (neg ++ '0' :: frac, r2)
  | c :: _ =>
    if c.isDigit then
      let (int, r) := jsonSpanDigits s1
      let (frac, r2) :=
        match r with
        | '.' :: r1 =>
          let (ds, r3) := jsonSpanDigits r1
          if ds.isEmpty then ([], '?' :: r1) else ('.' :: ds, r3)
        | _ => ([], r)
      if frac.isEmpty && (match r with | '.' :: _ => true | _ => false) then none
      else
        match r2 with
        | e :: r3 =>
          if e == 'e' || e == 'E' then
            let (sgn, r4) := match r3 with
              | '+' :: r5 => (['+'], r5)
              | '-' :: r5 => (['-'], r5)
              | _ => (([] : List Char), r3)
            let (ds, r6) := jsonSpanDigits r4
            if ds.isEmpty then none
            else some (neg ++ int ++ frac ++ e :: sgn ++ ds, r6)
          else some (neg ++ int ++ frac, r2)
        | [] => some (neg ++ int ++ frac, r2)
    else none
  | [] => none

mutual

/-- Fueled recursive-descent JSON value at the head of the input,
following the json.org grammar that JSON.parse accepts. -/
def jsonValueAt : Nat → List Char → Option (JsonVal × List Char)
  | 0, _ => none
  | Nat.succ fuel, s =>
    match jsonSkipWs s with
    | 'n' :: 'u' :: 'l' :: 'l' :: r => some (.null, r)
    | 't' :: 'r' :: 'u' :: 'e' :: r => some (.bool true, r)
    | 'f' :: 'a' :: 'l' :: 's' :: 'e' :: r => some (.bool false, r)
    | '"' :: r =>
      (jsonStringChars r).map (fun p => (.str ⟨p.1⟩, p.2))
    | '[' :: r =>
      (match jsonSkipWs r with
       | ']' :: r2 => some (.arr [], r2)
       | _ => (jsonArrayItems fuel (jsonSkipWs r)).map (fun p => (.arr p.1, p.2)))
    | '{' :: r =>
      (match jsonSkipWs r with
       | '}' :: r2 => some (.obj [], r2)
       | _ => (jsonObjectMembers fuel (jsonSkipWs r)).map (fun p => (.obj p.1, p.2)))
    | s2 => (jsonNumberChars s2).map (fun p => (.num ⟨p.1⟩, p.2))

/-- Fueled comma-separated array items up to the closing bracket. -/
def jsonArrayItems : Nat → List Char → Option (List JsonVal × List Char)
  | 0, _ => none
  | Nat.succ fuel, s =>
    match jsonValueAt fuel s with
    | none => none
    | some (v, r) =>
      match jsonSkipWs r with
      | ',' :: r2 => (jsonArrayItems fuel r2).map (fun p => (v :: p.1, p.2))
      | ']' :: r2 => some ([v], r2)
      | _ => none

/-- Fueled comma-separated object members up to the closing brace. -/
def jsonObjectMembers : Nat → List Char → Option (List (String × JsonVal) × List Char)
  | 0, _ => none
  | Nat.succ fuel, s =>
    match jsonSkipWs s with
    | '"' :: r =>
      match jsonStringChars r with
      | none => none
      | some (k, r2) =>
        match jsonSkipWs r2 with
        | ':' :: r3 =>
          match jsonValueAt fuel r3 with
          | none => none
          | some (v, r4) =>
            match jsonSkipWs r4 with
            | ',' :: r5 => (jsonObjectMembers fuel r5).map (fun p => ((⟨k⟩, v) :: p.1, p.2))
            | '}' :: r5 => some ([(⟨k⟩, v)], r5)
            | _ => none
        | _ => none
    | _ => none

end

/-- Model of the JSON.parse platform primitive, used only for its
success/failure verdict and, in witnesses, for the parsed value: a whole
JSON text is a single value surrounded by whitespace. -/
def jsonParse (s : String) : Option JsonVal :=
  match jsonValueAt (2 * s.length + 8) s.data with
  | some (v, r) => if jsonSkipWs r = [] then some v else none
  | none => none

/-- Percent-decoding model of decodeURIComponent restricted to ASCII
percent escapes (a percent sign must be followed by two hex digits; a
malformed escape models the thrown URIError as none). Multi-byte UTF-8
sequences are out of scope for the witnesses that use this model. -/
def percentDecode : List Char → Option (List Char)
  | [] => some []
  | '%' :: h1 :: h2 :: r =>
    if isHexChar h1 && isHexChar h2 then
      let hv := fun (c : Char) =>
        if c.isDigit then c.toNat - 48
        else if c.toNat ≥ 97 then c.toNat - 87 else c.toNat - 55
      (percentDecode r).map (fun l => Char.ofNat (hv h1 * 16 + hv h2) :: l)
    else none
  | '%' :: _ => none
  | c :: r => (percentDecode r).map (fun l => c :: l)

/-- The concrete platform instance used to instantiate oracle-quantified
theorems on concrete inputs. -/
def platformModel : Platform :=
  { parseUrl := parseUrlModel
    jsonParseOk := fun s => (jsonParse s).isSome
    decodeURIComponent := fun s => (percentDecode s.data).map (fun l => ⟨l⟩) }

/-! ## Helper lemmas about substring occurrence and digit strings -/

theorem charsHaveLead_append (pat rest : List Char) :
    charsHaveLead pat (pat ++ rest) = true := by
  induction pat with
  | nil => rfl
  | cons p ps ih => simp [charsHaveLead, ih]

theorem charsInclude_append (pat pre suf : List Char) :
    charsInclude pat (pre ++ pat ++ suf) = true := by
  induction pre with
  | nil =>
    cases pat with
    | nil =>
      cases suf with
      | nil => rfl
      | cons c cs => simp [charsInclude, charsHaveLead]
    | cons p ps =>
      simpa [charsInclude] using Or.inl (charsHaveLead_append (p :: ps) suf)
  | cons c cs ih =>
    simpa [charsInclude] using Or.inr ih

theorem mem_of_charsHaveLead {pat s : List Char} (h : charsHaveLead pat s = true) :
    ∀ c ∈ pat, c ∈ s := by
  induction pat generalizing s with
  | nil => simp
  | cons p ps ih =>
    cases s with
    | nil => simp [charsHaveLead] at h
    | cons x xs =>
      simp only [charsHaveLead, Bool.and_eq_true, beq_iff_eq] at h
      intro c hc
      rcases List.mem_cons.mp hc with rfl | hc
      · exact h.1 ▸ List.mem_cons_self _ _
      · exact List.mem_cons_of_mem _ (ih h.2 c hc)

theorem mem_of_charsInclude {pat l : List Char} (h : charsInclude pat l = true) :
    ∀ c ∈ pat, c ∈ l := by
  induction l with
  | nil =>
    cases pat with
    | nil => simp
    | cons p ps => simp [charsInclude, charsHaveLead] at h
  | cons x xs ih =>
    simp only [charsInclude, Bool.or_eq_true] at h
    intro c hc
    rcases h with h | h
    · exact mem_of_charsHaveLead h c hc
    · exact List.mem_cons_of_mem _ (ih h c hc)

theorem digitChar_isDigit (n : Nat) : (digitChar n).isDigit = true := by
  unfold digitChar
  split <;> decide

theorem isDigit_of_mem_natToDecimalAux (fuel : Nat) :
    ∀ (n : Nat) (acc : List Char), (∀ c ∈ acc, c.isDigit = true) →
      ∀ c ∈ natToDecimalAux fuel n acc, c.isDigit = true := by
  induction fuel with
  | zero => intro n acc hacc c hc; exact hacc c hc
  | succ fuel ih =>
    intro n acc hacc c hc
    simp only [natToDecimalAux] at hc
    split at hc
    · rcases List.mem_cons.mp hc with rfl | hc
      · exact digitChar_isDigit n
      · exact hacc c hc
    · refine ih (n / 10) _ ?_ c hc
      intro d hd
      rcases List.mem_cons.mp hd with rfl | hd
      · exact digitChar_isDigit _
      · exact hacc d hd

theorem isDigit_of_mem_natToDecimal (n : Nat) :
    ∀ c ∈ natToDecimal n, c.isDigit = true :=
  isDigit_of_mem_natToDecimalAux (n + 1) n [] (by simp)

theorem mem_mbToFixed2 (byteLength : Nat) :
    ∀ c ∈ mbToFixed2 byteLength, c.isDigit = true ∨ c = '.' := by
  intro c hc
  unfold mbToFixed2 at hc
  rcases List.mem_append.mp hc with hc | hc
  · exact Or.inl (isDigit_of_mem_natToDecimal _ c hc)
  · rcases List.mem_cons.mp hc with rfl | hc
    · exact Or.inr rfl
    · rcases List.mem_cons.mp hc with rfl | hc
      · exact Or.inl (digitChar_isDigit _)
      · rcases List.mem_cons.mp hc with rfl | hc
        · exact Or.inl (digitChar_isDigit _)
        · simp at hc

theorem colon_not_mem_binarySizeHeader (byteLength : Nat) :
    ':' ∉ binarySizeHeader byteLength := by
  intro h
  unfold binarySizeHeader at h
  simp only [List.append_assoc, List.mem_append] at h
  rcases h with h | h | h | h | h
  · simp at h
  · have := isDigit_of_mem_natToDecimal byteLength ':' h
    simp at this
  · simp at h
  · rcases mem_mbToFixed2 byteLength ':' h with hd | hd
    · simp at hd
    · simp at hd
  · simp at h

theorem no_marker_in_placeholder (byteLength : Nat) :
    jsIncludes (binaryPlaceholder byteLength) "Base64: " = false := by
  rcases Bool.eq_false_or_eq_true (jsIncludes (binaryPlaceholder byteLength) "Base64: ") with h | h
  swap
  · exact h
  exfalso
  have h' : charsInclude "Base64: ".data (binaryPlaceholder byteLength).data = true := h
  have hmem : ':' ∈ (binaryPlaceholder byteLength).data :=
    mem_of_charsInclude h' ':' (by decide)
  unfold binaryPlaceholder at hmem
  rcases List.mem_append.mp hmem with hc | hc
  · exact colon_not_mem_binarySizeHeader byteLength hc
  · simp at hc

theorem marker_in_preview (bytes : List Nat) :
    jsIncludes (binaryPreview bytes) "Base64: " = true := by
  show charsInclude "Base64: ".data
    (binarySizeHeader bytes.length ++ "Base64: ".data ++ base64Chunks bytes) = true
  exact charsInclude_append _ _ _

theorem bytecount_in_placeholder (byteLength : Nat) :
    jsIncludes (binaryPlaceholder byteLength)
      ⟨natToDecimal byteLength ++ " bytes".data⟩ = true := by
  show charsInclude (natToDecimal byteLength ++ " bytes".data)
    (binarySizeHeader byteLength ++
      "File too large for preview. Use download button to save the file.".data) = true
  unfold binarySizeHeader
  rw [show (" bytes (".data : List Char) = " bytes".data ++ " (".data from rfl]
  have := charsInclude_append (natToDecimal byteLength ++ " bytes".data)
    "[Binary data - ".data
    (" (".data ++ (mbToFixed2 byteLength ++ ("MB)]\n\n".data ++
      "File too large for preview. Use download button to save the file.".data)))
  simpa only [List.append_assoc] using this

theorem mbsize_in_placeholder (byteLength : Nat) :
    jsIncludes (binaryPlaceholder byteLength)
      ⟨mbToFixed2 byteLength ++ "MB".data⟩ = true := by
  show charsInclude (mbToFixed2 byteLength ++ "MB".data)
    (binarySizeHeader byteLength ++
      "File too large for preview. Use download button to save the file.".data) = true
  unfold binarySizeHeader
  rw [show ("MB)]\n\n".data : List Char) = "MB".data ++ ")]\n\n".data from rfl]
  have := charsInclude_append (mbToFixed2 byteLength ++ "MB".data)
    ("[Binary data - ".data ++ (natToDecimal byteLength ++ " bytes (".data))
    (")]\n\n".data ++
      "File too large for preview. Use download button to save the file.".data)
  simpa only [List.append_assoc] using this

/-! ## Helper lemmas about the preflight pipeline -/

theorem preflight_send_elim {pf : Platform} {b : ProxyRequestBody} {u : String}
    {opts : RequestOptions} (h : preflight pf b = .send u opts) :
    u = b.url ∧ buildRequestOptions pf b (removeHostHeader b.headers) = .ok opts := by
  unfold preflight at h
  split at h
  · exact absurd h (by simp)
  split at h
  · exact absurd h (by simp)
  split at h
  · exact absurd h (by simp)
  split at h
  · exact absurd h (by simp)
  next heq =>
    rw [PreflightStep.send.injEq] at h
    exact ⟨h.1.symm, h.2 ▸ heq⟩

theorem buildRequestOptions_body {pf : Platform} {b : ProxyRequestBody}
    {clean : List (String × String)} {opts : RequestOptions}
    (h : buildRequestOptions pf b clean = .ok opts) :
    opts.body.isSome = (jsBodyMethods.contains (asciiUpper b.method) && bodyTruthy b.body) := by
  unfold buildRequestOptions at h
  split at h
  · rename_i hg
    split at h
    · split at h
      · rw [BuildResult.ok.injEq] at h; subst h
        simp only [Option.isSome_some]; exact hg.symm
      · exact absurd h (by simp)
    · split at h
      · rw [BuildResult.ok.injEq] at h; subst h
        simp only [Option.isSome_some]; exact hg.symm
      · split at h
        · split at h
          · rw [BuildResult.ok.injEq] at h; subst h
            simp only [Option.isSome_some]; exact hg.symm
          · exact absurd h (by simp)
        · rw [BuildResult.ok.injEq] at h; subst h
          simp only [Option.isSome_some]; exact hg.symm
  · rename_i hg
    rw [Bool.not_eq_true] at hg
    rw [BuildResult.ok.injEq] at h; subst h
    simp only [Option.isSome_none]; exact hg.symm

theorem buildRequestOptions_headers_of_gate_false {pf : Platform} {b : ProxyRequestBody}
    {clean : List (String × String)} {opts : RequestOptions}
    (hg : (jsBodyMethods.contains (asciiUpper b.method) && bodyTruthy b.body) = false)
    (h : buildRequestOptions pf b clean = .ok opts) :
    opts = ⟨b.method, clean, none⟩ := by
  unfold buildRequestOptions at h
  rw [hg] at h
  simp only [Bool.false_eq_true, if_false] at h
  rw [BuildResult.ok.injEq] at h
  exact h.symm

theorem preflight_private {pf : Platform} {b : ProxyRequestBody} {parsed : ParsedUrl}
    (hurl : b.url ≠ "")
    (hparse : pf.parseUrl b.url = some parsed)
    (hpriv : isPrivateHostname (asciiLower parsed.hostname) = true) :
    preflight pf b = .reject 400 "Requests to private networks are not allowed" := by
  simp [preflight, hurl, hparse, hpriv]

/-! ## The claims -/

/-- C1: for every POST transport call whose request URL parses to a
hostname whose lower-casing is localhost, 127.0.0.1, 0.0.0.0 or ::1, or
starts with one of the literal prefixes 192.168., 10., 172.16., 172.17.,
172.18., 172.19., 172.2, 172.30., 172.31., fc00: or fe80:, the relay
responds 400 with the message "Requests to private networks are not
allowed" and performs no outbound call (fetch count 0), regardless of
scheme, path, method, headers, body or body type. Because the bare 172.2
entry is a string-prefix check, the hypothesis also covers non-private
hostnames such as 172.2.0.1 and 172.255.0.1 (see the witness). -/
theorem privateNetworkRejection (pf : Platform) (b : ProxyRequestBody)
    (parsed : ParsedUrl) (outcome : FetchOutcome) (elapsedMs : Nat)
    (hurl : b.url ≠ "")
    (hparse : pf.parseUrl b.url = some parsed)
    (hpriv :
      asciiLower parsed.hostname = "localhost" ∨
      asciiLower parsed.hostname = "127.0.0.1" ∨
      asciiLower parsed.hostname = "0.0.0.0" ∨
      asciiLower parsed.hostname = "::1" ∨
      jsStartsWith (asciiLower parsed.hostname) "192.168." = true ∨
      jsStartsWith (asciiLower parsed.hostname) "10." = true ∨
      jsStartsWith (asciiLower parsed.hostname) "172.16." = true ∨
      jsStartsWith (asciiLower parsed.hostname) "172.17." = true ∨
      jsStartsWith (asciiLower parsed.hostname) "172.18." = true ∨
      jsStartsWith (asciiLower parsed.hostname) "172.19." = true ∨
      jsStartsWith (asciiLower parsed.hostname) "172.2" = true ∨
      jsStartsWith (asciiLower parsed.hostname) "172.30." = true ∨
      jsStartsWith (asciiLower parsed.hostname) "172.31." = true ∨
      jsStartsWith (asciiLower parsed.hostname) "fc00:" = true ∨
      jsStartsWith (asciiLower parsed.hostname) "fe80:" = true) :
    handler pf "POST" b outcome elapsedMs =
      ⟨400, securityHeaders, .err "Requests to private networks are not allowed",
       0, none, none⟩ := by
  have hp : isPrivateHostname (asciiLower parsed.hostname) = true := by
    unfold isPrivateHostname
    rcases hpriv with h | h | h | h | h | h | h | h | h | h | h | h | h | h | h <;> simp [h]
  have hpre := preflight_private hurl hparse hp
  simp [handler, hpre]

/-- Witness for C1: a request for https://172.255.0.1/x (a hostname that is
not in any private range but starts with the bare prefix 172.2) is
rejected with the private-network error and no outbound call. -/
theorem privateNetworkRejection_witness :
    ("https://172.255.0.1/x" : String) ≠ "" ∧
    platformModel.parseUrl "https://172.255.0.1/x" = some ⟨"https:", "172.255.0.1"⟩ ∧
    jsStartsWith (asciiLower "172.255.0.1") "172.2" = true ∧
    handler platformModel "POST"
      ⟨"GET", "https://172.255.0.1/x", [], none, none⟩ .abortError 0 =
      ⟨400, securityHeaders, .err "Requests to private networks are not allowed",
       0, none, none⟩ :=
  ⟨by decide, by decide, by decide,
   privateNetworkRejection platformModel ⟨"GET", "https://172.255.0.1/x", [], none, none⟩
     ⟨"https:", "172.255.0.1"⟩ .abortError 0 (by decide) (by decide)
     (Or.inr (Or.inr (Or.inr (Or.inr (Or.inr (Or.inr (Or.inr (Or.inr (Or.inr (Or.inr
       (Or.inl (by decide))))))))))))⟩

/-- C2 counterexample: the claim says a host header under any letter
casing is removed before the outbound request is built. Concretely, a
request carrying the header ("Host", "attacker.example") reaches the
outbound options with that header still present (the deletion tests only
the exact lower-case property name "host"), so the outbound call does
carry a client-supplied Host header. -/
theorem hostHeaderCasing_counterexample :
    preflight platformModel
      ⟨"GET", "https://example.com/", [("Host", "attacker.example")], none, none⟩ =
      .send "https://example.com/" ⟨"GET", [("Host", "attacker.example")], none⟩ ∧
    [("Host", "attacker.example")].any (fun kv => asciiLower kv.1 == "host") = true :=
  ⟨by decide, by decide⟩

/-- C2 (amended): before the outbound request is built the relay removes
exactly the headers whose name is the lower-case string "host"; a header
named with any other casing (such as Host or HOST) is not removed, and
every header whose name is not exactly "host" is copied verbatim. For
requests that attach no body, the outbound options carry exactly these
cleaned headers. -/
theorem hostHeaderSanitization :
    (∀ headers : List (String × String),
      (∀ v : String, ("host", v) ∉ removeHostHeader headers) ∧
      (∀ kv ∈ headers, kv.1 ≠ "host" → kv ∈ removeHostHeader headers) ∧
      (∀ kv ∈ removeHostHeader headers, kv ∈ headers)) ∧
    (∀ (pf : Platform) (b : ProxyRequestBody) (u : String) (opts : RequestOptions),
      preflight pf b = .send u opts →
      (jsBodyMethods.contains (asciiUpper b.method) && bodyTruthy b.body) = false →
      opts.headers = removeHostHeader b.headers) := by
  constructor
  · intro headers
    refine ⟨?_, ?_, ?_⟩
    · intro v hv
      have := (List.mem_filter.mp hv).2
      simp at this
    · intro kv hm hne
      exact List.mem_filter.mpr ⟨hm, by simpa using hne⟩
    · intro kv hm
      exact (List.mem_filter.mp hm).1
  · intro pf b u opts hsend hg
    have hok := (preflight_send_elim hsend).2
    have := buildRequestOptions_headers_of_gate_false hg hok
    rw [this]

/-- Witness for the amended C2: with headers [("Host", "a"), ("host", "b"),
("Accept", "c")], the exact-case "host" entry is removed while the
"Host"-cased entry and the unrelated entry survive. -/
theorem hostHeaderSanitization_witness :
    ("host", "b") ∉ removeHostHeader [("Host", "a"), ("host", "b"), ("Accept", "c")] ∧
    ("Host", "a") ∈ removeHostHeader [("Host", "a"), ("host", "b"), ("Accept", "c")] ∧
    ("Accept", "c") ∈ removeHostHeader [("Host", "a"), ("host", "b"), ("Accept", "c")] :=
  ⟨(hostHeaderSanitization.1 [("Host", "a"), ("host", "b"), ("Accept", "c")]).1 "b",
   (hostHeaderSanitization.1 [("Host", "a"), ("host", "b"), ("Accept", "c")]).2.1
     ("Host", "a") (by decide) (by decide),
   (hostHeaderSanitization.1 [("Host", "a"), ("host", "b"), ("Accept", "c")]).2.1
     ("Accept", "c") (by decide) (by decide)⟩

/-- C3: for a request with bodyType json, a body-attaching method
(POST/PUT/PATCH after upper-casing) and a non-empty body that passes the
URL checks: if the body fails to parse as JSON the relay responds 400
"Invalid JSON in request body" with no outbound call; if it parses, the
outbound options carry the original body string unchanged together with
the header Content-Type: application/json. -/
theorem jsonBodyValidation (pf : Platform) (b : ProxyRequestBody)
    (parsed : ParsedUrl) (s : String)
    (hurl : b.url ≠ "")
    (hparse : pf.parseUrl b.url = some parsed)
    (hpriv : isPrivateHostname (asciiLower parsed.hostname) = false)
    (hmethod : jsBodyMethods.contains (asciiUpper b.method) = true)
    (hbody : b.body = some s) (hs : s ≠ "")
    (htype : b.bodyType = some "json") :
    (pf.jsonParseOk s = false →
      ∀ (outcome : FetchOutcome) (elapsedMs : Nat),
        handler pf "POST" b outcome elapsedMs =
          ⟨400, securityHeaders, .err "Invalid JSON in request body", 0, none, none⟩) ∧
    (pf.jsonParseOk s = true →
      preflight pf b = .send b.url
        ⟨b.method, jsObjSet (removeHostHeader b.headers) "Content-Type" "application/json",
         some (.str s)⟩) := by
  have htr : bodyTruthy (some s) = true := by
    simpa [bodyTruthy] using hs
  have hmem : asciiUpper b.method ∈ jsBodyMethods := by
    simpa using hmethod
  constructor
  · intro hj outcome elapsedMs
    have hpre : preflight pf b = .reject 400 "Invalid JSON in request body" := by
      simp [preflight, hurl, hparse, hpriv, buildRequestOptions, hmem, htr, htype, hbody, hj]
    simp [handler, hpre]
  · intro hj
    simp [preflight, hurl, hparse, hpriv, buildRequestOptions, hmem, htr, htype, hbody, hj]

/-- Witness for C3: the body \x7b"a":1\x7d parses and is forwarded
byte-for-byte with the JSON content type; the body \x7binvalid is
rejected with no outbound call. -/
theorem jsonBodyValidation_witness :
    platformModel.jsonParseOk "\x7b\"a\":1\x7d" = true ∧
    preflight platformModel
      ⟨"POST", "https://example.com/", [], some "\x7b\"a\":1\x7d", some "json"⟩ =
      .send "https://example.com/"
        ⟨"POST", [("Content-Type", "application/json")], some (.str "\x7b\"a\":1\x7d")⟩ ∧
    platformModel.jsonParseOk "\x7binvalid" = false ∧
    handler platformModel "POST"
      ⟨"POST", "https://example.com/", [], some "\x7binvalid", some "json"⟩ .abortError 0 =
      ⟨400, securityHeaders, .err "Invalid JSON in request body", 0, none, none⟩ :=
  ⟨by decide,
   (jsonBodyValidation platformModel
      ⟨"POST", "https://example.com/", [], some "\x7b\"a\":1\x7d", some "json"⟩
      ⟨"https:", "example.com"⟩ "\x7b\"a\":1\x7d"
      (by decide) (by decide) (by decide) (by decide) rfl (by decide) rfl).2 (by decide),
   by decide,
   (jsonBodyValidation platformModel
      ⟨"POST", "https://example.com/", [], some "\x7binvalid", some "json"⟩
      ⟨"https:", "example.com"⟩ "\x7binvalid"
      (by decide) (by decide) (by decide) (by decide) rfl (by decide) rfl).1 (by decide)
     .abortError 0⟩

/-- C4: for a response whose Content-Type matches neither the JSON nor any
of the textual branches, the envelope data is: over 10 MiB, the
placeholder that quotes the byte count and the two-decimal megabyte size
and contains no "Base64: " marker; at or under 10 MiB, the size header
followed by the literal marker "Base64: " and the base64 encoding of
exactly the response bytes. -/
theorem binaryResponseEncoding (url : String) (elapsedMs : Nat) (r : FetchResponse)
    (h1 : jsIncludes (r.contentTypeHeader.getD "") "application/json" = false)
    (h2 : jsIncludes (r.contentTypeHeader.getD "") "text/" = false)
    (h3 : jsIncludes (r.contentTypeHeader.getD "") "application/xml" = false)
    (h4 : jsIncludes (r.contentTypeHeader.getD "") "application/javascript" = false)
    (h5 : jsIncludes (r.contentTypeHeader.getD "") "application/xhtml+xml" = false) :
    (binaryLimitBytes < r.body.bytes.length →
      (mkEnvelope url elapsedMs r).data = binaryPlaceholder r.body.bytes.length ∧
      jsIncludes (mkEnvelope url elapsedMs r).data "Base64: " = false ∧
      jsIncludes (mkEnvelope url elapsedMs r).data
        ⟨natToDecimal r.body.bytes.length ++ " bytes".data⟩ = true ∧
      jsIncludes (mkEnvelope url elapsedMs r).data
        ⟨mbToFixed2 r.body.bytes.length ++ "MB".data⟩ = true) ∧
    (¬ binaryLimitBytes < r.body.bytes.length →
      (mkEnvelope url elapsedMs r).data =
        (⟨binarySizeHeader r.body.bytes.length⟩ : String) ++ "Base64: " ++
          base64Encode r.body.bytes ∧
      jsIncludes (mkEnvelope url elapsedMs r).data "Base64: " = true) := by
  have hdata : (mkEnvelope url elapsedMs r).data =
      classifyBody (r.contentTypeHeader.getD "") r.body := rfl
  constructor
  · intro hlen
    have hc : classifyBody (r.contentTypeHeader.getD "") r.body =
        binaryPlaceholder r.body.bytes.length := by
      simp [classifyBody, h1, h2, h3, h4, h5, hlen]
    refine ⟨hdata.trans hc, ?_, ?_, ?_⟩
    · rw [hdata, hc]; exact no_marker_in_placeholder _
    · rw [hdata, hc]; exact bytecount_in_placeholder _
    · rw [hdata, hc]; exact mbsize_in_placeholder _
  · intro hlen
    have hc : classifyBody (r.contentTypeHeader.getD "") r.body =
        binaryPreview r.body.bytes := by
      simp [classifyBody, h1, h2, h3, h4, h5, hlen]
    refine ⟨?_, ?_⟩
    · rw [hdata, hc]; rfl
    · rw [hdata, hc]; exact marker_in_preview _

/-- Witness for C4: an 10485761-byte image/png body yields the placeholder
with no base64 marker, while a 4-byte body of the same type yields the
size header, the marker and the base64 text of exactly those bytes. -/
theorem binaryResponseEncoding_witness :
    (mkEnvelope "https://example.com/img" 0
        ⟨200, "OK", [], some "image/png", ⟨List.replicate 10485761 0, "", none⟩⟩).data =
      binaryPlaceholder 10485761 ∧
    jsIncludes (binaryPlaceholder 10485761) "Base64: " = false ∧
    (mkEnvelope "https://example.com/img" 0
        ⟨200, "OK", [], some "image/png", ⟨[137, 80, 78, 71], "", none⟩⟩).data =
      (⟨binarySizeHeader 4⟩ : String) ++ "Base64: " ++ base64Encode [137, 80, 78, 71] ∧
    jsIncludes (mkEnvelope "https://example.com/img" 0
        ⟨200, "OK", [], some "image/png", ⟨[137, 80, 78, 71], "", none⟩⟩).data
      "Base64: " = true := by
  have hbig := (binaryResponseEncoding "https://example.com/img" 0
      ⟨200, "OK", [], some "image/png", ⟨List.replicate 10485761 0, "", none⟩⟩
      (by decide) (by decide) (by decide) (by decide) (by decide)).1
    (by rw [show (⟨List.replicate 10485761 0, "", none⟩ : ResponseBody).bytes.length = 10485761
          from by rw [List.length_replicate]]; decide)
  have hsmall := (binaryResponseEncoding "https://example.com/img" 0
      ⟨200, "OK", [], some "image/png", ⟨[137, 80, 78, 71], "", none⟩⟩
      (by decide) (by decide) (by decide) (by decide) (by decide)).2 (by decide)
  simp only [List.length_replicate] at hbig
  exact ⟨hbig.1, hbig.1 ▸ hbig.2.1, hsmall.1, hsmall.2⟩

/-- C5: for a response whose Content-Type contains application/json, the
envelope data is the JSON.parse result of the body re-serialized by the
2-space pretty printer; when the body fails to parse, the data is exactly
"Unable to parse response body". -/
theorem jsonResponsePrettyPrint (url : String) (elapsedMs : Nat) (r : FetchResponse)
    (h : jsIncludes (r.contentTypeHeader.getD "") "application/json" = true) :
    (∀ v : JsonVal, r.body.json = some v →
      (mkEnvelope url elapsedMs r).data = jsonStringify2 v) ∧
    (r.body.json = none →
      (mkEnvelope url elapsedMs r).data = "Unable to parse response body") := by
  have hdata : (mkEnvelope url elapsedMs r).data =
      classifyBody (r.contentTypeHeader.getD "") r.body := rfl
  constructor
  · intro v hv; rw [hdata]; simp [classifyBody, h, hv]
  · intro hv; rw [hdata]; simp [classifyBody, h, hv]

/-- Witness for C5: a JSON response whose body parses to the object with
the single field a = 1 yields the 2-space pretty-printed data string, and
an unparseable JSON response yields the fixed fallback message. -/
theorem jsonResponsePrettyPrint_witness :
    jsIncludes "application/json; charset=utf-8" "application/json" = true ∧
    (mkEnvelope "https://example.com/api" 3
        ⟨200, "OK", [], some "application/json; charset=utf-8",
         ⟨[], "", some (.obj [("a", .num "1")])⟩⟩).data = "\x7b\n  \"a\": 1\n\x7d" ∧
    (mkEnvelope "https://example.com/api" 3
        ⟨200, "OK", [], some "application/json", ⟨[], "", none⟩⟩).data =
      "Unable to parse response body" := by
  have h := (jsonResponsePrettyPrint "https://example.com/api" 3
      ⟨200, "OK", [], some "application/json; charset=utf-8",
       ⟨[], "", some (.obj [("a", .num "1")])⟩⟩ (by decide)).1 (.obj [("a", .num "1")]) rfl
  have h2 := (jsonResponsePrettyPrint "https://example.com/api" 3
      ⟨200, "OK", [], some "application/json", ⟨[], "", none⟩⟩ (by decide)).2 rfl
  refine ⟨by decide, h.trans ?_, h2⟩
  simp [jsonStringify2, jsonStringifyAt, jsonFields, jsonQuote, jsonEscapeChar]

/-- C6: the outbound call runs under the 30000 ms timer whose expiry
aborts the in-flight fetch through the AbortController whose signal the
fetch carries; when the timeout wins the race the relay fails with status
500 and the exact message "Request timeout (30 seconds)", and the handler
never issues more than one outbound fetch (no automatic retry). -/
theorem timeoutBehaviour :
    proxyTimeoutMs = 30000 ∧
    (∀ (pf : Platform) (b : ProxyRequestBody) (u : String) (opts : RequestOptions)
       (delay : Nat) (r : FetchResponse) (elapsedMs : Nat),
      preflight pf b = .send u opts → proxyTimeoutMs ≤ delay →
      handler pf "POST" b (raceTimeout delay r) elapsedMs =
        ⟨500, securityHeaders, .err "Request timeout (30 seconds)", 1, some u, some opts⟩) ∧
    (∀ (pf : Platform) (tm : String) (b : ProxyRequestBody) (outcome : FetchOutcome)
       (elapsedMs : Nat), (handler pf tm b outcome elapsedMs).fetchCount ≤ 1) := by
  refine ⟨rfl, ?_, ?_⟩
  · intro pf b u opts delay r elapsedMs hsend hdelay
    have hrace : raceTimeout delay r = .abortError := by
      simp [raceTimeout, hdelay]
    simp [handler, hsend, hrace]
  · intro pf tm b outcome elapsedMs
    unfold handler
    split
    · simp
    · split
      · simp
      · split <;> simp

/-- Witness for C6: a target that answers only at the 30000 ms mark loses
the race and the relay reports the timeout error after its single fetch. -/
theorem timeoutBehaviour_witness :
    preflight platformModel ⟨"GET", "https://example.com/", [], none, none⟩ =
      .send "https://example.com/" ⟨"GET", [], none⟩ ∧
    proxyTimeoutMs ≤ 30000 ∧
    handler platformModel "POST" ⟨"GET", "https://example.com/", [], none, none⟩
      (raceTimeout 30000 ⟨200, "OK", [], none, ⟨[], "", none⟩⟩) 0 =
      ⟨500, securityHeaders, .err "Request timeout (30 seconds)", 1,
       some "https://example.com/", some ⟨"GET", [], none⟩⟩ :=
  ⟨by decide, by decide,
   timeoutBehaviour.2.1 platformModel ⟨"GET", "https://example.com/", [], none, none⟩
     "https://example.com/" ⟨"GET", [], none⟩ 30000 ⟨200, "OK", [], none, ⟨[], "", none⟩⟩ 0
     (by decide) (by decide)⟩

/-- C7: for input lacking an explicit http:// or https:// prefix (after
trimming), when the candidate obtained by prefixing https:// parses with a
hostname of length at least 2 that contains a dot or is exactly localhost,
the validator reports isValid false, canBeUsed true and correctedUrl equal
to the candidate; in particular validateUrl "example.com/api" yields the
corrected URL https://example.com/api. -/
theorem urlAutoCorrect :
    (∀ (pf : Platform) (url : String) (parsed : ParsedUrl),
      jsTrim url ≠ "" →
      jsStartsWith (jsTrim url) "http://" = false →
      jsStartsWith (jsTrim url) "https://" = false →
      pf.parseUrl ("https://" ++ jsTrim url) = some parsed →
      2 ≤ parsed.hostname.length →
      (jsIncludes parsed.hostname "." = true ∨ parsed.hostname = "localhost") →
      validateUrl pf url = ⟨false, true, none, some ("https://" ++ jsTrim url)⟩) ∧
    validateUrl platformModel "example.com/api" =
      ⟨false, true, none, some "https://example.com/api"⟩ := by
  constructor
  · intro pf url parsed hne h1 h2 hp hlen hdom
    have hne' : parsed.hostname ≠ "" := by
      intro h
      rw [h] at hlen
      simp at hlen
    have hhost : (parsed.hostname == "" || decide (parsed.hostname.length < 2)) = false := by
      simp [hne', Nat.not_lt.mpr hlen]
    have hdom' : (!jsIncludes parsed.hostname "." && parsed.hostname != "localhost") = false := by
      rcases hdom with h | h
      · simp [h]
      · simp [h]
    simp [validateUrl, hne, h1, h2, hp, hhost, hdom']
  · decide

/-- Witness for C7: the input example.com/api has no scheme, the https
candidate parses to hostname example.com, and the validator returns the
corrected URL. -/
theorem urlAutoCorrect_witness :
    jsTrim "example.com/api" ≠ "" ∧
    jsStartsWith (jsTrim "example.com/api") "http://" = false ∧
    jsStartsWith (jsTrim "example.com/api") "https://" = false ∧
    platformModel.parseUrl ("https://" ++ jsTrim "example.com/api") =
      some ⟨"https:", "example.com"⟩ ∧
    validateUrl platformModel "example.com/api" =
      ⟨false, true, none, some ("https://" ++ jsTrim "example.com/api")⟩ :=
  ⟨by decide, by decide, by decide, by decide,
   urlAutoCorrect.1 platformModel "example.com/api" ⟨"https:", "example.com"⟩
     (by decide) (by decide) (by decide) (by decide) (by decide) (Or.inl (by decide))⟩

/-- C8 counterexample: the claim says the method-not-allowed response
carries an Allow: POST header. On a GET transport call the handler answers
405 and sets only the three security headers, none of which is named
allow in any casing, so no Allow header accompanies the 405. -/
theorem methodNotAllowed_counterexample :
    handler platformModel "GET" ⟨"GET", "https://example.com/", [], none, none⟩ .abortError 0 =
      ⟨405, securityHeaders, .err "Method not allowed", 0, none, none⟩ ∧
    securityHeaders.any (fun kv => asciiLower kv.1 == "allow") = false :=
  ⟨by rfl, by decide⟩

/-- C8 (amended): every non-POST transport call is answered with a 405
result carrying the error message "Method not allowed" and no outbound
call; the response headers set by the handler are exactly the three
security headers, so no Allow header is present. -/
theorem methodNotAllowed (pf : Platform) (tm : String) (b : ProxyRequestBody)
    (outcome : FetchOutcome) (elapsedMs : Nat) (h : tm ≠ "POST") :
    handler pf tm b outcome elapsedMs =
      ⟨405, securityHeaders, .err "Method not allowed", 0, none, none⟩ ∧
    securityHeaders.any (fun kv => asciiLower kv.1 == "allow") = false := by
  refine ⟨?_, by decide⟩
  simp [handler, h]

/-- Witness for C8 (amended) at the transport method GET. -/
theorem methodNotAllowed_witness :
    handler platformModel "GET" ⟨"POST", "https://x.example/", [], none, none⟩ .abortError 7 =
      ⟨405, securityHeaders, .err "Method not allowed", 0, none, none⟩ :=
  (methodNotAllowed platformModel "GET" ⟨"POST", "https://x.example/", [], none, none⟩
    .abortError 7 (by decide)).1

/-- C9: for every descriptor whose method is one of the seven descriptor
methods, whenever the preflight reaches the outbound fetch, a body is
attached to the outbound options iff the method is POST, PUT or PATCH and
the body string is present and non-empty. -/
theorem bodyAttachmentGate (pf : Platform) (b : ProxyRequestBody)
    (u : String) (opts : RequestOptions)
    (hm : b.method ∈ (["GET", "POST", "PUT", "DELETE", "PATCH", "HEAD", "OPTIONS"] : List String))
    (h : preflight pf b = .send u opts) :
    (opts.body.isSome = true ↔
      ((b.method = "POST" ∨ b.method = "PUT" ∨ b.method = "PATCH") ∧
        bodyTruthy b.body = true)) := by
  have hok := (preflight_send_elim h).2
  have hb := buildRequestOptions_body hok
  have hup : asciiUpper b.method = b.method := by
    simp only [List.mem_cons, List.not_mem_nil, or_false] at hm
    rcases hm with h1 | h1 | h1 | h1 | h1 | h1 | h1 <;> rw [h1] <;> decide
  rw [hup] at hb
  have hcon : (jsBodyMethods.contains b.method = true) ↔
      (b.method = "POST" ∨ b.method = "PUT" ∨ b.method = "PATCH") := by
    simp [jsBodyMethods]
  rw [hb, Bool.and_eq_true]
  exact and_congr_left fun _ => hcon

/-- Witness for C9: a GET request with a non-empty raw body reaches the
fetch with no body attached, while the same POST request attaches it. -/
theorem bodyAttachmentGate_witness :
    ((⟨"GET", [], none⟩ : RequestOptions).body.isSome = true ↔
      ((("GET" : String) = "POST" ∨ ("GET" : String) = "PUT" ∨ ("GET" : String) = "PATCH") ∧
        bodyTruthy (some "payload") = true)) ∧
    ((⟨"POST", [], some (.str "payload")⟩ : RequestOptions).body.isSome = true ↔
      ((("POST" : String) = "POST" ∨ ("POST" : String) = "PUT" ∨ ("POST" : String) = "PATCH") ∧
        bodyTruthy (some "payload") = true)) :=
  ⟨bodyAttachmentGate platformModel
     ⟨"GET", "https://example.com/", [], some "payload", some "raw"⟩
     "https://example.com/" ⟨"GET", [], none⟩ (by decide) (by decide),
   bodyAttachmentGate platformModel
     ⟨"POST", "https://example.com/", [], some "payload", some "raw"⟩
     "https://example.com/" ⟨"POST", [], some (.str "payload")⟩ (by decide) (by decide)⟩

/-- The shape invariant of a UrlValidationResult: a valid result is usable
and carries neither error nor correction; a corrected result is usable but
not valid as given; and unusability coincides with the presence of an
error message. -/
def urlResultInvariant (r : UrlValidationResult) : Bool :=
  (!r.isValid || (r.canBeUsed && r.error.isNone && r.correctedUrl.isNone)) &&
  (!r.correctedUrl.isSome || (!r.isValid && r.canBeUsed)) &&
  ((!r.canBeUsed) == r.error.isSome)

/-- C10: every result of validateUrl satisfies the shape invariant, for
every input string and every behaviour of the URL-parsing primitive. -/
theorem validateUrlShape (pf : Platform) (url : String) :
    urlResultInvariant (validateUrl pf url) = true := by
  unfold validateUrl
  dsimp only
  repeat' split
  all_goals rfl
